import Mathlib

/-!
Shallow embedding of the kairos change-detection collection engine
(src/collection.rs, src/database.rs, src/request.rs, src/main.rs,
src/config.rs), together with theorems checking the specification's
claims against it.

The store (`Database` in src/database.rs) is backed by SQLite through
`schema.sql`; the schema file itself is not part of the sources here, so
the uniqueness and foreign-key constraints it declares are modelled from
the spec (see the doc comments on the store operations).  Row ids are
modelled as monotone per-table counters, matching SQLite rowid
allocation as observed through `last_insert_rowid` / `SELECT id`.
-/

/-- A link extracted from a page: `Link { href, text }` in src/page.rs. -/
structure Link where
  href : String
  text : String
deriving DecidableEq, Repr

/-- A configured page (src/collection.rs uses `page.name`, `page.url`,
`page.selector`; the selector is kept as its serialized string, which is
what `Database::add_page` stores via `to_css_string`). -/
structure Page where
  name : String
  url : String
  selector : String
deriving DecidableEq, Repr

/-- `CollectionStats` from src/collection.rs. -/
structure CollectionStats where
  n_pages : Nat
  n_links : Nat
  n_new_links : Nat
deriving DecidableEq, Repr

/-- `impl Add for CollectionStats` (src/collection.rs lines 86-96):
pointwise addition. -/
instance : Add CollectionStats :=
  ⟨fun a b => ⟨a.n_pages + b.n_pages, a.n_links + b.n_links,
               a.n_new_links + b.n_new_links⟩⟩

/-- `Default::default()` for `CollectionStats`: all-zero. -/
def CollectionStats.zero : CollectionStats := ⟨0, 0, 0⟩

/-- Error kinds surfaced by the engine.  In the source these are all
`anyhow::Error` values with distinct messages; distinct constructors
model the distinct messages (in particular a cancellation error,
`"GET: {url}: cancelled"`, is never equal to a network error,
`"GET: {url}"` with a reqwest cause). -/
inductive Err where
  | cancelled (url : String)
  | network (url : String)
  | extraction (msg : String)
  | store (msg : String)
  | indexMap
deriving DecidableEq, Repr

/-- A row of the `pages` table. -/
structure PageRow where
  id : Nat
  url : String
  selector : String
deriving DecidableEq, Repr

/-- A row of the `links` table. -/
structure LinkRow where
  id : Nat
  page_id : Nat
  href : String
  text : String
deriving DecidableEq, Repr

/-- A row of the `collections` table.  `endData = none` models a null
`end_time` (and null counts); `endData = some (np, nl, nn)` models a row
whose end time and counts have been set by `end_collection`. -/
structure CollectionRow where
  id : Nat
  endData : Option (Nat × Nat × Nat)
deriving DecidableEq, Repr

/-- A row of the `links_collections` sighting table. -/
structure SightingRow where
  link_id : Nat
  collection_id : Nat
deriving DecidableEq, Repr

/-- The store state (`Database` in src/database.rs): the four tables plus
per-table next-rowid counters. -/
structure Database where
  pages : List PageRow
  links : List LinkRow
  collections : List CollectionRow
  sightings : List SightingRow
  nextPageId : Nat
  nextLinkId : Nat
  nextCollectionId : Nat
deriving DecidableEq, Repr

/-- The empty store. -/
def Database.empty : Database := ⟨[], [], [], [], 1, 1, 1⟩

/-- `Database::start_collection` (src/database.rs lines 30-47): insert a
new run row with a null end time, return `last_insert_rowid`. -/
def Database.start_collection (db : Database) : Nat × Database :=
  (db.nextCollectionId,
   { db with
     collections := db.collections ++ [⟨db.nextCollectionId, none⟩]
     nextCollectionId := db.nextCollectionId + 1 })

/-- `Database::end_collection` (src/database.rs lines 49-76): UPDATE the
run row with the given id, setting its end time and the three counts. -/
def Database.end_collection (db : Database) (collection_id n_pages n_links n_new_links : Nat) :
    Database :=
  { db with
    collections := db.collections.map fun r =>
      if r.id == collection_id then ⟨r.id, some (n_pages, n_links, n_new_links)⟩ else r }

/-- `Database::add_page` (src/database.rs lines 78-112): INSERT OR IGNORE
then SELECT the id by `(url, selector)`.

Modelled from the spec: `schema.sql` is not among the sources; the spec
(§3, §6) declares `pages` unique on `(url, extract_spec)`, so INSERT OR
IGNORE inserts exactly when no row with this `(url, selector)` exists,
and the SELECT returns that single row's id. -/
def Database.add_page (db : Database) (url selector : String) : Nat × Database :=
  match db.pages.find? (fun r => r.url == url && r.selector == selector) with
  | some r => (r.id, db)
  | none =>
      (db.nextPageId,
       { db with
         pages := db.pages ++ [⟨db.nextPageId, url, selector⟩]
         nextPageId := db.nextPageId + 1 })

/-- `Database::add_link` (src/database.rs lines 114-149): INSERT OR IGNORE
then SELECT the id by `(page_id, href, text)`.

Modelled from the spec: `schema.sql` is not among the sources; the spec
(§3, §6) declares `links` unique on `(page_id, href, text)`, and the test
`add_link_requires_valid_page_id` shows a foreign-key constraint from
`links.page_id` to `pages.id`, so the insert fails with a store error
when no page with this id exists. -/
def Database.add_link (db : Database) (page_id : Nat) (href text : String) :
    Except Err (Nat × Database) :=
  if db.pages.any (fun r => r.id == page_id) then
    match db.links.find?
        (fun r => r.page_id == page_id && r.href == href && r.text == text) with
    | some r => .ok (r.id, db)
    | none =>
        .ok (db.nextLinkId,
             { db with
               links := db.links ++ [⟨db.nextLinkId, page_id, href, text⟩]
               nextLinkId := db.nextLinkId + 1 })
  else .error (.store "database.add_link: INSERT OR IGNORE")

/-- `Database::link_exists` (src/database.rs lines 151-176):
`SELECT COUNT(*) ... > 0`. -/
def Database.link_exists (db : Database) (page_id : Nat) (href text : String) : Bool :=
  0 < db.links.countP
        (fun r => r.page_id == page_id && r.href == href && r.text == text)

/-- `Database::add_link_collection` (src/database.rs lines 178-200):
append a sighting row. -/
def Database.add_link_collection (db : Database) (link_id collection_id : Nat) : Database :=
  { db with sightings := db.sightings ++ [⟨link_id, collection_id⟩] }

/-- Outcome of the race inside `request::get` (src/request.rs lines 22-36)
between the cancellation signal and the (retried) HTTP response: either
the cancellation fired first, or the request completed with a body or a
network error. -/
inductive RaceOutcome where
  | cancelledFirst
  | response (result : Except String String)
deriving Repr

/-- `request::get` (src/request.rs lines 22-36): `tokio::select!` between
`cancellation_token.cancelled()` — which bails with a cancellation
error — and the response, whose failure is a network error. -/
def request_get (url : String) (outcome : RaceOutcome) : Except Err String :=
  match outcome with
  | .cancelledFirst => .error (.cancelled url)
  | .response (.error _) => .error (.network url)
  | .response (.ok body) => .ok body

/-- `Page::request` (src/page.rs lines 134-263): fetch the body via
`request::get`, then run the page's extraction strategy.  The extraction
strategies are external collaborators (spec §1), abstracted as a
function from the body to links or an extraction error. -/
def Page.request (page : Page) (outcome : RaceOutcome)
    (extract : String → Except Err (List Link)) : Except Err (List Link) :=
  match request_get page.url outcome with
  | .error e => .error e
  | .ok body => extract body

/-- The per-link loop of `collect_page` (src/collection.rs lines 109-141):
for each extracted link, bump `n_links`, check `link_exists` (strictly
before the insert), bump `n_new_links` when the triple was absent, then
`add_link` and `add_link_collection`.  The store state is threaded and
returned even on error (the store persists across a failed worker). -/
def collectLoop (page_id collection_id : Nat) :
    List Link → Database → Nat → Nat → Except Err (Nat × Nat) × Database
  | [], db, n_links, n_new_links => (.ok (n_links, n_new_links), db)
  | link :: rest, db, n_links, n_new_links =>
      let n_links := n_links + 1
      let is_new := ! db.link_exists page_id link.href link.text
      let n_new_links := if is_new then n_new_links + 1 else n_new_links
      match db.add_link page_id link.href link.text with
      | .error e => (.error e, db)
      | .ok (link_id, db) =>
          let db := db.add_link_collection link_id collection_id
          collectLoop page_id collection_id rest db n_links n_new_links

/-- `collect_page` (src/collection.rs lines 98-148): `add_page` for this
page's `(url, selector)`, fetch-and-extract (`page.request()`, whose
outcome — links, fetch error, extraction error or cancellation — is the
`fetched` argument), then the per-link loop; on success the worker's
stats are `{ n_pages: 1, n_links, n_new_links }`. -/
def collect_page (page : Page) (collection_id : Nat) (db : Database)
    (fetched : Except Err (List Link)) : Except Err CollectionStats × Database :=
  let (page_id, db) := db.add_page page.url page.selector
  match fetched with
  | .error e => (.error e, db)
  | .ok links =>
      match collectLoop page_id collection_id links db 0 0 with
      | (.error e, db) => (.error e, db)
      | (.ok (n_links, n_new_links), db) =>
          (.ok ⟨1, n_links, n_new_links⟩, db)

/-- `IndexMap::insert` with value `0` (src/collection.rs line 33): an
existing key keeps its position and gets the new value; a new key is
appended. -/
def counterInsertZero (c : List (String × Nat)) (k : String) : List (String × Nat) :=
  if c.any (fun kv => kv.1 == k) then
    c.map (fun kv => if kv.1 == k then (kv.1, 0) else kv)
  else c ++ [(k, 0)]

/-- The counter initialization loop of `Collection::try_new`
(src/collection.rs lines 32-43): insert a zero entry per page, in input
order. -/
def counterInit (pages : List Page) : List (String × Nat) :=
  pages.foldl (fun c page => counterInsertZero c page.name) []

/-- `entry.and_modify(|x| *x += d)` on an occupied entry
(src/collection.rs lines 52-55): bump the value at the key in place. -/
def counterBump (c : List (String × Nat)) (k : String) (d : Nat) : List (String × Nat) :=
  c.map fun kv => if kv.1 == k then (kv.1, kv.2 + d) else kv

/-- The await loop of `Collection::try_new` (src/collection.rs lines
45-76): await each page worker in input order; the first failure
propagates immediately (so `end_collection` is skipped); otherwise fold
the stats into the total, bump the counter entry for the page's name
(bailing if it is vacant), and after all workers call
`end_collection` with the total's three counts. -/
def awaitLoop (collection_id : Nat) :
    List (Page × Except Err (List Link)) → Database → CollectionStats →
    List (String × Nat) → Except Err (CollectionStats × List (String × Nat)) × Database
  | [], db, total, counter =>
      (.ok (total, counter),
       db.end_collection collection_id total.n_pages total.n_links total.n_new_links)
  | (page, fetched) :: rest, db, total, counter =>
      match collect_page page collection_id db fetched with
      | (.error e, db) => (.error e, db)
      | (.ok stats, db) =>
          let total := total + stats
          if counter.any (fun kv => kv.1 == page.name) then
            awaitLoop collection_id rest db total
              (counterBump counter page.name stats.n_new_links)
          else (.error .indexMap, db)

/-- `Collection::try_new` (src/collection.rs lines 21-84): start a run
row, initialize the per-page counter map in input order, run one worker
per page (the i-th page's fetch-and-extract outcome is `fetches[i]`; the
Rust workers run concurrently and are awaited in input order — the
awaited aggregation is modelled by running each worker at its await
point), and on success return the folded total and the counter. -/
def Collection.try_new (pages : List Page) (fetches : List (Except Err (List Link)))
    (db : Database) : Except Err (CollectionStats × List (String × Nat)) × Database :=
  let (collection_id, db) := db.start_collection
  let counter := counterInit pages
  awaitLoop collection_id (pages.zip fetches) db CollectionStats.zero counter

/-- The `(href, text)` pairs recorded in the store for a given page id. -/
def linkTriples (db : Database) (page_id : Nat) : List (String × String) :=
  db.links.filterMap fun r =>
    if r.page_id == page_id then some (r.href, r.text) else none

/-- Reference novelty count: a link is new exactly when its `(href,
text)` pair is not among the pairs already seen for this page — the
store's pairs at the start, plus the earlier links of this same page
(each checked link is inserted before the next check). -/
def novelCount (seen : List (String × String)) : List Link → Nat
  | [] => 0
  | link :: rest =>
      (if seen.contains (link.href, link.text) then 0 else 1)
        + novelCount ((link.href, link.text) :: seen) rest

/-- Mirror of the await loop that records each successful worker's page
name and stats in order (used to characterize the counter and the
total). -/
def runResults (collection_id : Nat) :
    List (Page × Except Err (List Link)) → Database →
    Except Err (List (String × CollectionStats)) × Database
  | [], db => (.ok [], db)
  | (page, fetched) :: rest, db =>
      match collect_page page collection_id db fetched with
      | (.error e, db) => (.error e, db)
      | (.ok stats, db) =>
          match runResults collection_id rest db with
          | (.error e, db) => (.error e, db)
          | (.ok results, db) => (.ok ((page.name, stats) :: results), db)

/-- The distinct page names of the input list, in order of first
occurrence. -/
def firstOccNames (pages : List Page) : List String :=
  pages.foldl (fun acc page =>
    if acc.contains page.name then acc else acc ++ [page.name]) []

/-- Lookup in the counter map (first entry with the key). -/
def counterGet (c : List (String × Nat)) (k : String) : Option Nat :=
  (c.find? (fun kv => kv.1 == k)).map (fun kv => kv.2)

/-- `Vec::join(", ")` on the chunk list (src/main.rs line 76). -/
def joinSep (sep : String) : List String → String
  | [] => ""
  | [s] => s
  | s :: rest => s ++ sep ++ joinSep sep rest

/-- The message composition of `send_notification` (src/main.rs lines
39-78): filter the insertion-ordered counter to pages with new links;
format a chunk for each of the first three; compose by case on the
number of qualifying pages, replacing the third chunk by the "some
more" clause when there are four or more. -/
def composeMessage (counter : List (String × Nat)) : String :=
  let qualifying := counter.filter fun kv => decide (0 < kv.2)
  let n_pages := qualifying.length
  let chunks := (qualifying.take 3).map fun kv => Nat.repr kv.2 ++ " for " ++ kv.1
  if n_pages = 1 then
    chunks.getD 0 "" ++ "."
  else if n_pages = 2 then
    chunks.getD 0 "" ++ " and " ++ chunks.getD 1 "" ++ "."
  else if n_pages = 3 then
    chunks.getD 0 "" ++ ", " ++ chunks.getD 1 "" ++ ", and " ++ chunks.getD 2 "" ++ "."
  else
    let chunks :=
      if 2 < chunks.length then
        chunks.set 2 ("and some more for " ++ Nat.repr (n_pages - 2) ++ " other pages.")
      else chunks
    joinSep ", " chunks

/-- The title composition of `send_notification` (src/main.rs lines
80-88): plural when the total is greater than one, singular otherwise. -/
def composeTitle (n_new_links : Nat) : String :=
  if 1 < n_new_links then Nat.repr n_new_links ++ " new links"
  else Nat.repr n_new_links ++ " new link"

/-- `Config` (src/config.rs): database path, page list, optional
notifier credentials (token, user). -/
structure Config where
  database : String
  page : List Page
  pushover : Option (String × String)
deriving Repr

/-- The scheduler's loop-local state in `process` (src/main.rs lines
119-181): the configuration in effect and the live run's cancellation
token, modelled as a token id together with the set of cancelled ids
and a fresh-token counter. -/
structure SchedState where
  config : Config
  currentTask : Option Nat
  cancelledTokens : List Nat
  nextToken : Nat
deriving Repr

/-- A control input to one iteration of the scheduler's `select!`
(src/main.rs lines 132-180): a reload signal carrying the outcome of
`Config::load`, an explicit cancel signal, or an interval tick. -/
inductive SchedEvent where
  | reload (loaded : Except String Config)
  | cancelRun
  | tick
deriving Repr

/-- One iteration of the scheduler loop in `process` (src/main.rs lines
132-180).  The body is an infinite `loop` with no break or return: every
arm yields a successor state, which is what this total step function
expresses.  On reload, a load failure is logged and the state is kept;
on cancel, a live token is cancelled and cleared (a no-op otherwise); on
tick, a still-live token is cancelled and a fresh token is installed for
the newly spawned run. -/
def processStep (s : SchedState) (e : SchedEvent) : SchedState :=
  match e with
  | .reload (.ok c) => { s with config := c }
  | .reload (.error _) => s
  | .cancelRun =>
      match s.currentTask with
      | some token =>
          { s with cancelledTokens := s.cancelledTokens ++ [token], currentTask := none }
      | none => s
  | .tick =>
      let cancelled :=
        match s.currentTask with
        | some token => s.cancelledTokens ++ [token]
        | none => s.cancelledTokens
      { s with
        cancelledTokens := cancelled
        currentTask := some s.nextToken
        nextToken := s.nextToken + 1 }

/-- The sum of `n_new_links` over the run's per-page results for pages
with the given name. -/
def namedSum (results : List (String × CollectionStats)) (k : String) : Nat :=
  ((results.filter fun r => r.1 == k).map fun r => r.2.n_new_links).sum

/-- A concrete store holding one page (id 1, url "u", selector "s") and
one link (page 1, href "h1", text "t1"), used for concrete scenarios. -/
def dbC1 : Database :=
  ⟨[⟨1, "u", "s"⟩], [⟨1, 1, "h1", "t1"⟩], [], [], 2, 2, 1⟩

/-! ### Store operation lemmas -/

lemma add_page_snd_links (db : Database) (url sel : String) :
    ((db.add_page url sel).2).links = db.links := by
  rcases h : db.pages.find? (fun r => r.url == url && r.selector == sel) with _ | r <;>
    simp [Database.add_page, h]

lemma add_page_snd_collections (db : Database) (url sel : String) :
    ((db.add_page url sel).2).collections = db.collections := by
  rcases h : db.pages.find? (fun r => r.url == url && r.selector == sel) with _ | r <;>
    simp [Database.add_page, h]

lemma add_page_valid (db : Database) (url sel : String) :
    ((db.add_page url sel).2).pages.any (fun r => r.id == (db.add_page url sel).1) = true := by
  rcases h : db.pages.find? (fun r => r.url == url && r.selector == sel) with _ | r
  · simp [Database.add_page, h]
  · simp only [Database.add_page, h, List.any_eq_true]
    exact ⟨r, List.mem_of_find?_eq_some h, by simp⟩

lemma add_link_collection_links (db : Database) (i c : Nat) :
    (db.add_link_collection i c).links = db.links := rfl

lemma add_link_collection_pages (db : Database) (i c : Nat) :
    (db.add_link_collection i c).pages = db.pages := rfl

lemma add_link_collection_collections (db : Database) (i c : Nat) :
    (db.add_link_collection i c).collections = db.collections := rfl

lemma contains_decide {α : Type _} [BEq α] [LawfulBEq α] [DecidableEq α]
    (l : List α) (a : α) : l.contains a = decide (a ∈ l) := by
  rw [Bool.eq_iff_iff]; simp

lemma linkTriples_congr (db db' : Database) (pid : Nat) (h : db'.links = db.links) :
    linkTriples db' pid = linkTriples db pid := by
  simp [linkTriples, h]

lemma mem_linkTriples {db : Database} {pid : Nat} {x : String × String} :
    x ∈ linkTriples db pid
      ↔ ∃ r ∈ db.links, r.page_id = pid ∧ r.href = x.1 ∧ r.text = x.2 := by
  simp only [linkTriples, List.mem_filterMap, Option.ite_none_right_eq_some,
    Option.some.injEq, beq_iff_eq]
  constructor
  · rintro ⟨r, hr, hpid, hx⟩
    exact ⟨r, hr, hpid, by rw [← hx], by rw [← hx]⟩
  · rintro ⟨r, hr, hpid, h1, h2⟩
    exact ⟨r, hr, hpid, by rw [h1, h2]⟩

lemma link_exists_eq (db : Database) (pid : Nat) (href text : String) :
    db.link_exists pid href text = (linkTriples db pid).contains (href, text) := by
  rw [contains_decide]
  simp only [Database.link_exists]
  refine decide_eq_decide.mpr ?_
  rw [List.countP_pos_iff, mem_linkTriples]
  constructor
  · rintro ⟨r, hr, hp⟩
    simp only [Bool.and_eq_true, beq_iff_eq] at hp
    exact ⟨r, hr, hp.1.1, hp.1.2, hp.2⟩
  · rintro ⟨r, hr, h1, h2, h3⟩
    exact ⟨r, hr, by simp [h1, h2, h3]⟩

lemma add_link_ok_spec (db : Database) (pid : Nat) (href text : String)
    (hvalid : db.pages.any (fun r => r.id == pid) = true) :
    ∃ id db', db.add_link pid href text = .ok (id, db')
      ∧ db'.pages = db.pages
      ∧ db'.collections = db.collections
      ∧ (∀ r ∈ db.links, r ∈ db'.links)
      ∧ (∀ x : String × String,
          (linkTriples db' pid).contains x
            = (((href, text) :: linkTriples db pid).contains x)) := by
  rcases h : db.links.find?
      (fun r => r.page_id == pid && r.href == href && r.text == text) with _ | r
  · refine ⟨db.nextLinkId,
      { db with
        links := db.links ++ [⟨db.nextLinkId, pid, href, text⟩]
        nextLinkId := db.nextLinkId + 1 }, ?_, rfl, rfl, ?_, ?_⟩
    · simp [Database.add_link, hvalid, h]
    · intro r hr; simp [hr]
    · intro x
      have htr : linkTriples
          { db with
            links := db.links ++ [⟨db.nextLinkId, pid, href, text⟩]
            nextLinkId := db.nextLinkId + 1 } pid
          = linkTriples db pid ++ [(href, text)] := by
        simp [linkTriples, List.filterMap_append]
      rw [htr, contains_decide, contains_decide]
      refine decide_eq_decide.mpr ?_
      simp only [List.mem_append, List.mem_cons, List.mem_singleton]
      tauto
  · have hp := List.find?_some h
    simp only [Bool.and_eq_true, beq_iff_eq] at hp
    have hmem : (href, text) ∈ linkTriples db pid :=
      mem_linkTriples.mpr ⟨r, List.mem_of_find?_eq_some h, hp.1.1, hp.1.2, hp.2⟩
    refine ⟨r.id, db, ?_, rfl, rfl, fun r hr => hr, ?_⟩
    · simp [Database.add_link, hvalid, h]
    · intro x
      rw [contains_decide, contains_decide]
      refine decide_eq_decide.mpr ?_
      simp only [List.mem_cons]
      constructor
      · intro hx; exact Or.inr hx
      · rintro (hx | hx)
        · exact hx ▸ hmem
        · exact hx

/-! ### Novelty counting lemmas -/

lemma novelCount_congr : ∀ (ls : List Link) (s₁ s₂ : List (String × String)),
    (∀ x, s₁.contains x = s₂.contains x) → novelCount s₁ ls = novelCount s₂ ls
  | [], _, _, _ => rfl
  | l :: rest, s₁, s₂, h => by
      simp only [novelCount, h]
      congr 1
      refine novelCount_congr rest _ _ (fun x => ?_)
      rw [contains_decide, contains_decide]
      refine decide_eq_decide.mpr ?_
      simp only [List.mem_cons]
      have := h x
      rw [contains_decide, contains_decide, decide_eq_decide] at this
      rw [this]

lemma novelCount_le_length : ∀ (s : List (String × String)) (ls : List Link),
    novelCount s ls ≤ ls.length
  | _, [] => Nat.le_refl 0
  | s, l :: rest => by
      simp only [novelCount, List.length_cons]
      have := novelCount_le_length ((l.href, l.text) :: s) rest
      cases s.contains (l.href, l.text) <;> simp <;> omega

/-! ### The per-link loop -/

lemma collectLoop_spec (pid cid : Nat) :
    ∀ (links : List Link) (db : Database) (nl nn : Nat),
      db.pages.any (fun r => r.id == pid) = true →
      ∃ db', collectLoop pid cid links db nl nn
          = (.ok (nl + links.length, nn + novelCount (linkTriples db pid) links), db')
        ∧ db'.pages = db.pages
        ∧ db'.collections = db.collections
        ∧ (∀ r ∈ db.links, r ∈ db'.links)
  | [], db, nl, nn, _ => ⟨db, by simp [collectLoop, novelCount], rfl, rfl, fun _ h => h⟩
  | link :: rest, db, nl, nn, hvalid => by
      obtain ⟨id, db₂, hadd, hpages, hcoll, hmono, htr⟩ :=
        add_link_ok_spec db pid link.href link.text hvalid
      have hvalid₃ :
          ((db₂.add_link_collection id cid).pages.any (fun r => r.id == pid)) = true := by
        rw [add_link_collection_pages, hpages]; exact hvalid
      obtain ⟨db', heq, hpages', hcoll', hmono'⟩ :=
        collectLoop_spec pid cid rest (db₂.add_link_collection id cid) (nl + 1)
          (if ! db.link_exists pid link.href link.text then nn + 1 else nn) hvalid₃
      refine ⟨db', ?_, ?_, ?_, ?_⟩
      · have hstep : collectLoop pid cid (link :: rest) db nl nn
            = collectLoop pid cid rest (db₂.add_link_collection id cid) (nl + 1)
                (if ! db.link_exists pid link.href link.text then nn + 1 else nn) := by
          simp only [collectLoop, hadd]
        rw [hstep, heq]
        have htr₃ : novelCount
            (linkTriples (db₂.add_link_collection id cid) pid) rest
            = novelCount ((link.href, link.text) :: linkTriples db pid) rest := by
          rw [linkTriples_congr db₂ (db₂.add_link_collection id cid) pid
            (add_link_collection_links db₂ id cid)]
          exact novelCount_congr rest _ _ htr
        have e1 : nl + 1 + rest.length = nl + (link :: rest).length := by
          simp [List.length_cons]; omega
        have e2 : (if ! db.link_exists pid link.href link.text then nn + 1 else nn)
              + novelCount ((link.href, link.text) :: linkTriples db pid) rest
            = nn + novelCount (linkTriples db pid) (link :: rest) := by
          rw [link_exists_eq]
          simp only [novelCount]
          cases hc : (linkTriples db pid).contains (link.href, link.text)
          · simp
            omega
          · simp
        rw [htr₃, e2, e1]
      · rw [hpages', add_link_collection_pages, hpages]
      · rw [hcoll', add_link_collection_collections, hcoll]
      · intro r hr
        exact hmono' r (by rw [add_link_collection_links]; exact hmono r hr)

/-! ### Page worker lemmas -/

lemma collect_page_ok (page : Page) (cid : Nat) (db : Database) (links : List Link) :
    ∃ db', collect_page page cid db (.ok links)
        = (.ok ⟨1, links.length,
            novelCount (linkTriples db (db.add_page page.url page.selector).1) links⟩, db')
      ∧ db'.collections = db.collections
      ∧ (∀ r ∈ db.links, r ∈ db'.links) := by
  obtain ⟨db', heq, hpages, hcoll, hmono⟩ :=
    collectLoop_spec (db.add_page page.url page.selector).1 cid links
      (db.add_page page.url page.selector).2 0 0 (add_page_valid db page.url page.selector)
  have htr : linkTriples (db.add_page page.url page.selector).2
        (db.add_page page.url page.selector).1
      = linkTriples db (db.add_page page.url page.selector).1 :=
    linkTriples_congr db _ _ (add_page_snd_links db page.url page.selector)
  refine ⟨db', ?_, ?_, ?_⟩
  · have hbody : collect_page page cid db (.ok links)
        = (match collectLoop (db.add_page page.url page.selector).1 cid links
              (db.add_page page.url page.selector).2 0 0 with
           | (.error e, db) => (.error e, db)
           | (.ok (n_links, n_new_links), db) => (.ok ⟨1, n_links, n_new_links⟩, db)) := rfl
    rw [hbody, heq]
    simp [htr]
  · rw [hcoll, add_page_snd_collections]
  · intro r hr
    refine hmono r ?_
    rw [add_page_snd_links]; exact hr

lemma collect_page_err (page : Page) (cid : Nat) (db : Database) (e : Err) :
    collect_page page cid db (.error e)
      = (.error e, (db.add_page page.url page.selector).2) := rfl

/-! ### Counter map lemmas -/

lemma any_key_eq_contains (c : List (String × Nat)) (k : String) :
    (c.any fun kv => kv.1 == k) = (c.map Prod.fst).contains k := by
  rw [contains_decide, Bool.eq_iff_iff]
  simp [List.any_eq_true]

lemma counterBump_fst (c : List (String × Nat)) (k : String) (d : Nat) :
    (counterBump c k d).map Prod.fst = c.map Prod.fst := by
  simp only [counterBump, List.map_map]
  refine List.map_congr_left (fun kv _ => ?_)
  simp only [Function.comp_def]
  split <;> rfl

lemma counterBump_any (c : List (String × Nat)) (k : String) (d : Nat) (q : String) :
    (counterBump c k d).any (fun kv => kv.1 == q) = c.any (fun kv => kv.1 == q) := by
  rw [any_key_eq_contains, any_key_eq_contains, counterBump_fst]

lemma counterGet_bump (c : List (String × Nat)) (k q : String) (d : Nat) :
    counterGet (counterBump c k d) q
      = if q = k then (counterGet c q).map (· + d) else counterGet c q := by
  induction c with
  | nil => simp [counterGet, counterBump]
  | cons kv rest ih =>
      cases hkk : (kv.1 == k) <;> cases hkq : (kv.1 == q)
      · have h1 : ¬ kv.1 = k := by simpa using hkk
        have h2 : ¬ kv.1 = q := by simpa using hkq
        simpa [counterBump, counterGet, List.find?_cons, h1, h2] using ih
      · have h1 : ¬ kv.1 = k := by simpa using hkk
        have h2 : kv.1 = q := by simpa using hkq
        have h3 : ¬ q = k := by rw [← h2]; exact h1
        simp [counterBump, counterGet, List.find?_cons, h1, h2, h3]
      · have h1 : kv.1 = k := by simpa using hkk
        have h2 : ¬ kv.1 = q := by simpa using hkq
        have h3 : ¬ k = q := by rw [← h1]; exact h2
        simpa [counterBump, counterGet, List.find?_cons, h1, h2, h3] using ih
      · have h1 : kv.1 = k := by simpa using hkk
        have h2 : kv.1 = q := by simpa using hkq
        have h3 : q = k := by rw [← h1, h2]
        simp [counterBump, counterGet, List.find?_cons, h1, h2, h3]

lemma counterInsertZero_fst (c : List (String × Nat)) (k : String) :
    (counterInsertZero c k).map Prod.fst
      = if (c.map Prod.fst).contains k then c.map Prod.fst
        else c.map Prod.fst ++ [k] := by
  simp only [counterInsertZero, any_key_eq_contains]
  cases h : (c.map Prod.fst).contains k
  · simp [h]
  · simp only [h, if_true]
    simp only [List.map_map]
    refine List.map_congr_left (fun kv _ => ?_)
    simp only [Function.comp_def]
    split <;> rfl

lemma counterInsertZero_vals (c : List (String × Nat)) (k : String)
    (h : ∀ kv ∈ c, kv.2 = 0) : ∀ kv ∈ counterInsertZero c k, kv.2 = 0 := by
  intro kv hkv
  simp only [counterInsertZero] at hkv
  cases hany : (c.any fun kv => kv.1 == k)
  · rw [hany] at hkv
    simp only [Bool.false_eq_true, if_false] at hkv
    rcases List.mem_append.mp hkv with h1 | h1
    · exact h kv h1
    · simp only [List.mem_singleton] at h1
      rw [h1]
  · rw [hany] at hkv
    simp only [if_true] at hkv
    obtain ⟨kv', hkv', hg⟩ := List.mem_map.mp hkv
    cases hk : (kv'.1 == k)
    · rw [hk] at hg
      simp only [Bool.false_eq_true, if_false] at hg
      rw [← hg]; exact h kv' hkv'
    · rw [hk] at hg
      simp only [if_true] at hg
      rw [← hg]

lemma foldl_insertZero_fst : ∀ (pages : List Page) (acc : List (String × Nat)),
    (pages.foldl (fun c page => counterInsertZero c page.name) acc).map Prod.fst
      = pages.foldl
          (fun ns page => if ns.contains page.name then ns else ns ++ [page.name])
          (acc.map Prod.fst)
  | [], _ => rfl
  | page :: rest, acc => by
      simp only [List.foldl_cons]
      rw [foldl_insertZero_fst rest (counterInsertZero acc page.name),
        counterInsertZero_fst]

lemma counterInit_fst (pages : List Page) :
    (counterInit pages).map Prod.fst = firstOccNames pages := by
  simpa [counterInit, firstOccNames] using foldl_insertZero_fst pages []

lemma foldl_names_nodup : ∀ (pages : List Page) (acc : List String), acc.Nodup →
    (pages.foldl
      (fun ns page => if ns.contains page.name then ns else ns ++ [page.name]) acc).Nodup
  | [], _, h => h
  | page :: rest, acc, h => by
      simp only [List.foldl_cons]
      refine foldl_names_nodup rest _ ?_
      cases hc : acc.contains page.name
      · have hmem : page.name ∉ acc := by
          rw [contains_decide] at hc
          simpa using hc
        simp only [hc, Bool.false_eq_true, if_false]
        exact List.Nodup.append h (List.nodup_singleton _)
          (by simpa [List.disjoint_singleton] using hmem)
      · simpa [hc] using h

lemma firstOccNames_nodup (pages : List Page) : (firstOccNames pages).Nodup :=
  foldl_names_nodup pages [] List.nodup_nil

lemma foldl_names_mem : ∀ (pages : List Page) (acc : List String) (x : String),
    x ∈ pages.foldl
        (fun ns page => if ns.contains page.name then ns else ns ++ [page.name]) acc
      ↔ x ∈ acc ∨ ∃ p ∈ pages, p.name = x
  | [], acc, x => by simp
  | page :: rest, acc, x => by
      simp only [List.foldl_cons]
      rw [foldl_names_mem rest _ x]
      have hstep : x ∈ (if acc.contains page.name then acc else acc ++ [page.name])
          ↔ x ∈ acc ∨ x = page.name := by
        cases hc : acc.contains page.name
        · simp [hc]
        · have hmem : page.name ∈ acc := by
            rw [contains_decide] at hc
            simpa using hc
          simp only [hc, if_true]
          constructor
          · exact Or.inl
          · rintro (h | h)
            · exact h
            · exact h ▸ hmem
      rw [hstep]
      simp only [List.mem_cons]
      constructor
      · rintro ((h | h) | ⟨p, hp, hn⟩)
        · exact Or.inl h
        · exact Or.inr ⟨page, Or.inl rfl, h.symm⟩
        · exact Or.inr ⟨p, Or.inr hp, hn⟩
      · rintro (h | ⟨p, (hp | hp), hn⟩)
        · exact Or.inl (Or.inl h)
        · exact Or.inl (Or.inr (hp ▸ hn.symm))
        · exact Or.inr ⟨p, hp, hn⟩

lemma firstOccNames_mem (pages : List Page) (x : String) :
    x ∈ firstOccNames pages ↔ ∃ p ∈ pages, p.name = x := by
  rw [firstOccNames, foldl_names_mem]
  simp

lemma foldl_insertZero_vals : ∀ (pages : List Page) (acc : List (String × Nat)),
    (∀ kv ∈ acc, kv.2 = 0) →
    ∀ kv ∈ pages.foldl (fun c page => counterInsertZero c page.name) acc, kv.2 = 0
  | [], _, h => h
  | page :: rest, acc, h => by
      simp only [List.foldl_cons]
      exact foldl_insertZero_vals rest _ (counterInsertZero_vals acc page.name h)

lemma counterInit_any (pages : List Page) (p : Page) (hp : p ∈ pages) :
    ((counterInit pages).any fun kv => kv.1 == p.name) = true := by
  rw [any_key_eq_contains, counterInit_fst, contains_decide, decide_eq_true_eq]
  exact (firstOccNames_mem pages p.name).mpr ⟨p, hp, rfl⟩

lemma counterGet_init (pages : List Page) (k : String) :
    counterGet (counterInit pages) k
      = if (firstOccNames pages).contains k then some 0 else none := by
  have hvals : ∀ kv ∈ counterInit pages, kv.2 = 0 :=
    foldl_insertZero_vals pages [] (by simp)
  have hkeys : ((counterInit pages).any fun kv => kv.1 == k)
      = (firstOccNames pages).contains k := by
    rw [any_key_eq_contains, counterInit_fst]
  cases hfind : (counterInit pages).find? (fun kv => kv.1 == k) with
  | none =>
      have hany : ((counterInit pages).any fun kv => kv.1 == k) = false := by
        cases hA : ((counterInit pages).any fun kv => kv.1 == k)
        · rfl
        · obtain ⟨kv, hkv, hp⟩ := List.any_eq_true.mp hA
          exact absurd hp (List.find?_eq_none.mp hfind kv hkv)
      rw [counterGet, hfind, ← hkeys, hany]
      simp
  | some kv =>
      have h2 := hvals kv (List.mem_of_find?_eq_some hfind)
      have hpred := List.find?_some hfind
      have hany : ((counterInit pages).any fun kv => kv.1 == k) = true :=
        List.any_eq_true.mpr
          ⟨kv, List.mem_of_find?_eq_some hfind, hpred⟩
      rw [counterGet, hfind, ← hkeys, hany]
      simp [h2]

lemma counterGet_foldl_bump : ∀ (results : List (String × CollectionStats))
    (c : List (String × Nat)) (k : String),
    counterGet (results.foldl (fun c r => counterBump c r.1 r.2.n_new_links) c) k
      = (counterGet c k).map (· + namedSum results k)
  | [], c, k => by cases h : counterGet c k <;> simp [namedSum, h]
  | r :: rest, c, k => by
      simp only [List.foldl_cons]
      rw [counterGet_foldl_bump rest _ k, counterGet_bump]
      by_cases hk : k = r.1
      · rw [if_pos hk]
        have hfil : (r.1 == k) = true := by simp [hk]
        cases h : counterGet c k <;>
          simp [namedSum, h, hfil, Nat.add_assoc]
      · rw [if_neg hk]
        have hfil : (r.1 == k) = false := by
          simp only [beq_eq_false_iff_ne, ne_eq]
          intro hr; exact hk hr.symm
        cases h : counterGet c k <;> simp [namedSum, h, hfil]

lemma foldl_stats_components : ∀ (results : List (String × CollectionStats))
    (t : CollectionStats),
    (results.foldl (fun t r => t + r.2) t).n_pages
        = t.n_pages + (results.map fun r => r.2.n_pages).sum
    ∧ (results.foldl (fun t r => t + r.2) t).n_links
        = t.n_links + (results.map fun r => r.2.n_links).sum
    ∧ (results.foldl (fun t r => t + r.2) t).n_new_links
        = t.n_new_links + (results.map fun r => r.2.n_new_links).sum
  | [], t => by simp
  | r :: rest, t => by
      obtain ⟨h1, h2, h3⟩ := foldl_stats_components rest (t + r.2)
      simp only [List.foldl_cons, List.map_cons, List.sum_cons]
      have e1 : (t + r.2).n_pages = t.n_pages + r.2.n_pages := rfl
      have e2 : (t + r.2).n_links = t.n_links + r.2.n_links := rfl
      have e3 : (t + r.2).n_new_links = t.n_new_links + r.2.n_new_links := rfl
      refine ⟨?_, ?_, ?_⟩
      · rw [h1, e1]; omega
      · rw [h2, e2]; omega
      · rw [h3, e3]; omega

lemma foldl_stats_inv : ∀ (l : List CollectionStats) (t : CollectionStats),
    t.n_new_links ≤ t.n_links → (∀ s ∈ l, s.n_new_links ≤ s.n_links) →
    (l.foldl (· + ·) t).n_new_links ≤ (l.foldl (· + ·) t).n_links
  | [], _, ht, _ => ht
  | s :: rest, t, ht, hl => by
      simp only [List.foldl_cons]
      refine foldl_stats_inv rest (t + s) ?_
        (fun x hx => hl x (List.mem_cons_of_mem _ hx))
      have h1 : (t + s).n_new_links = t.n_new_links + s.n_new_links := rfl
      have h2 : (t + s).n_links = t.n_links + s.n_links := rfl
      have h3 := hl s (List.mem_cons_self _ _)
      omega

/-! ### Await loop lemmas -/

lemma awaitLoop_of_runResults_err (cid : Nat) :
    ∀ (l : List (Page × Except Err (List Link))) (db : Database)
      (total : CollectionStats) (counter : List (String × Nat))
      (e : Err) (db₂ : Database),
      runResults cid l db = (.error e, db₂) →
      (∀ pf ∈ l, counter.any (fun kv => kv.1 == pf.1.name) = true) →
      awaitLoop cid l db total counter = (.error e, db₂)
  | [], db, total, counter, e, db₂, h, _ => by
      simp [runResults] at h
  | (page, f) :: rest, db, total, counter, e, db₂, h, hkeys => by
      rcases hc : collect_page page cid db f with ⟨res, db₁⟩
      cases res with
      | error e₁ =>
          have hrun : runResults cid ((page, f) :: rest) db = (.error e₁, db₁) := by
            simp only [runResults, hc]
          have h2 := hrun.symm.trans h
          simp only [Prod.mk.injEq, Except.error.injEq] at h2
          obtain ⟨h3, h4⟩ := h2
          subst h3; subst h4
          simp only [awaitLoop, hc]
      | ok stats =>
          rcases hr : runResults cid rest db₁ with ⟨res₂, db₃⟩
          cases res₂ with
          | error e₂ =>
              have hrun : runResults cid ((page, f) :: rest) db = (.error e₂, db₃) := by
                simp only [runResults, hc, hr]
              have h2 := hrun.symm.trans h
              simp only [Prod.mk.injEq, Except.error.injEq] at h2
              obtain ⟨h3, h4⟩ := h2
              rw [h3, h4] at hr
              have hkey := hkeys (page, f) (List.mem_cons_self _ _)
              simp only [awaitLoop, hc]
              rw [if_pos hkey]
              exact awaitLoop_of_runResults_err cid rest db₁ _ _ e db₂ hr
                (fun pf hpf => by
                  rw [counterBump_any]
                  exact hkeys pf (List.mem_cons_of_mem _ hpf))
          | ok results' =>
              have hrun : runResults cid ((page, f) :: rest) db
                  = (.ok ((page.name, stats) :: results'), db₃) := by
                simp only [runResults, hc, hr]
              have h2 := hrun.symm.trans h
              simp at h2

lemma awaitLoop_of_runResults_ok (cid : Nat) :
    ∀ (l : List (Page × Except Err (List Link))) (db : Database)
      (total : CollectionStats) (counter : List (String × Nat))
      (results : List (String × CollectionStats)) (db₂ : Database),
      runResults cid l db = (.ok results, db₂) →
      (∀ pf ∈ l, counter.any (fun kv => kv.1 == pf.1.name) = true) →
      awaitLoop cid l db total counter
        = (.ok (results.foldl (fun t r => t + r.2) total,
                results.foldl (fun c r => counterBump c r.1 r.2.n_new_links) counter),
           db₂.end_collection cid
             (results.foldl (fun t r => t + r.2) total).n_pages
             (results.foldl (fun t r => t + r.2) total).n_links
             (results.foldl (fun t r => t + r.2) total).n_new_links)
  | [], db, total, counter, results, db₂, h, _ => by
      have hrun : runResults cid ([] : List (Page × Except Err (List Link))) db
          = (.ok ([] : List (String × CollectionStats)), db) := rfl
      have h2 := hrun.symm.trans h
      simp only [Prod.mk.injEq, Except.ok.injEq] at h2
      obtain ⟨h3, h4⟩ := h2
      subst h3; subst h4
      simp only [awaitLoop, List.foldl_nil]
  | (page, f) :: rest, db, total, counter, results, db₂, h, hkeys => by
      rcases hc : collect_page page cid db f with ⟨res, db₁⟩
      cases res with
      | error e₁ =>
          have hrun : runResults cid ((page, f) :: rest) db = (.error e₁, db₁) := by
            simp only [runResults, hc]
          have h2 := hrun.symm.trans h
          simp at h2
      | ok stats =>
          rcases hr : runResults cid rest db₁ with ⟨res₂, db₃⟩
          cases res₂ with
          | error e₂ =>
              have hrun : runResults cid ((page, f) :: rest) db = (.error e₂, db₃) := by
                simp only [runResults, hc, hr]
              have h2 := hrun.symm.trans h
              simp at h2
          | ok results' =>
              have hrun : runResults cid ((page, f) :: rest) db
                  = (.ok ((page.name, stats) :: results'), db₃) := by
                simp only [runResults, hc, hr]
              have h2 := hrun.symm.trans h
              simp only [Prod.mk.injEq, Except.ok.injEq] at h2
              obtain ⟨h3, h4⟩ := h2
              subst h3
              rw [h4] at hr
              have hkey := hkeys (page, f) (List.mem_cons_self _ _)
              simp only [awaitLoop, hc]
              rw [if_pos hkey]
              rw [awaitLoop_of_runResults_ok cid rest db₁ (total + stats)
                (counterBump counter page.name stats.n_new_links) results' db₂ hr
                (fun pf hpf => by
                  rw [counterBump_any]
                  exact hkeys pf (List.mem_cons_of_mem _ hpf))]
              simp only [List.foldl_cons]

lemma runResults_first_err (cid : Nat) :
    ∀ (l : List (Page × Except Err (List Link))) (i : Nat) (db : Database)
      (p : Page) (e : Err),
      l.get? i = some (p, .error e) →
      (∀ j, j < i → ∃ q ls, l.get? j = some (q, .ok ls)) →
      ∃ db₂, runResults cid l db = (.error e, db₂)
        ∧ db₂.collections = db.collections
        ∧ (∀ r ∈ db.links, r ∈ db₂.links)
  | [], i, db, p, e, h, _ => by simp at h
  | (q, f) :: rest, 0, db, p, e, h, _ => by
      simp only [List.get?_cons_zero, Option.some.injEq, Prod.mk.injEq] at h
      obtain ⟨h1, h2⟩ := h
      subst h2
      refine ⟨(db.add_page q.url q.selector).2, ?_, ?_, ?_⟩
      · simp only [runResults, collect_page_err]
      · exact add_page_snd_collections db q.url q.selector
      · intro r hr
        rw [add_page_snd_links]; exact hr
  | (q, f) :: rest, i + 1, db, p, e, h, hbefore => by
      obtain ⟨q', ls, h0⟩ := hbefore 0 (Nat.succ_pos i)
      simp only [List.get?_cons_zero, Option.some.injEq, Prod.mk.injEq] at h0
      obtain ⟨hq, hf⟩ := h0
      subst hf
      obtain ⟨db₁, hcp, hcoll₁, hmono₁⟩ := collect_page_ok q cid db ls
      simp only [List.get?_cons_succ] at h
      obtain ⟨db₂, hrun, hcoll₂, hmono₂⟩ :=
        runResults_first_err cid rest i db₁ p e h
          (fun j hj => by
            obtain ⟨q₂, ls₂, hg⟩ := hbefore (j + 1) (Nat.succ_lt_succ hj)
            simp only [List.get?_cons_succ] at hg
            exact ⟨q₂, ls₂, hg⟩)
      refine ⟨db₂, ?_, ?_, ?_⟩
      · simp only [runResults, hcp, hrun]
      · rw [hcoll₂, hcoll₁]
      · intro r hr
        exact hmono₂ r (hmono₁ r hr)

lemma runResults_ok_spec (cid : Nat) :
    ∀ (l : List (Page × Except Err (List Link))) (db : Database)
      (results : List (String × CollectionStats)) (db₂ : Database),
      runResults cid l db = (.ok results, db₂) →
      results.length = l.length
      ∧ (∀ r ∈ results, r.2.n_pages = 1 ∧ r.2.n_new_links ≤ r.2.n_links)
  | [], db, results, db₂, h => by
      have hrun : runResults cid ([] : List (Page × Except Err (List Link))) db
          = (.ok ([] : List (String × CollectionStats)), db) := rfl
      have h2 := hrun.symm.trans h
      simp only [Prod.mk.injEq, Except.ok.injEq] at h2
      obtain ⟨h3, _⟩ := h2
      subst h3
      exact ⟨rfl, by simp⟩
  | (q, f) :: rest, db, results, db₂, h => by
      cases f with
      | error e =>
          have hrun : runResults cid ((q, .error e) :: rest) db
              = (.error e, (db.add_page q.url q.selector).2) := by
            simp only [runResults, collect_page_err]
          have h2 := hrun.symm.trans h
          simp at h2
      | ok ls =>
          obtain ⟨db₁, hcp, _, _⟩ := collect_page_ok q cid db ls
          rcases hr : runResults cid rest db₁ with ⟨res₂, db₃⟩
          cases res₂ with
          | error e₂ =>
              have hrun : runResults cid ((q, .ok ls) :: rest) db = (.error e₂, db₃) := by
                simp only [runResults, hcp, hr]
              have h2 := hrun.symm.trans h
              simp at h2
          | ok results' =>
              have hrun : runResults cid ((q, .ok ls) :: rest) db
                  = (.ok ((q.name,
                      ⟨1, ls.length,
                        novelCount (linkTriples db (db.add_page q.url q.selector).1) ls⟩)
                      :: results'), db₃) := by
                simp only [runResults, hcp, hr]
              have h2 := hrun.symm.trans h
              simp only [Prod.mk.injEq, Except.ok.injEq] at h2
              obtain ⟨h3, _⟩ := h2
              subst h3
              obtain ⟨hlen, hinv⟩ := runResults_ok_spec cid rest db₁ results' db₃ hr
              refine ⟨by simp [hlen], ?_⟩
              intro r hr₂
              rcases List.mem_cons.mp hr₂ with h4 | h4
              · subst h4
                exact ⟨rfl, novelCount_le_length _ _⟩
              · exact hinv r h4

/-! ### Orchestrator decomposition -/

lemma try_new_unfold (pages : List Page) (fetches : List (Except Err (List Link)))
    (db : Database) :
    Collection.try_new pages fetches db
      = awaitLoop db.nextCollectionId (pages.zip fetches)
          (db.start_collection).2 CollectionStats.zero (counterInit pages) := rfl

lemma zip_keys (pages : List Page) (fetches : List (Except Err (List Link))) :
    ∀ pf ∈ pages.zip fetches,
      ((counterInit pages).any fun kv => kv.1 == pf.1.name) = true :=
  fun pf hpf => counterInit_any pages pf.1 (List.of_mem_zip hpf).1

lemma try_new_ok_decomp (pages : List Page) (fetches : List (Except Err (List Link)))
    (db : Database) (total : CollectionStats) (counter : List (String × Nat))
    (db' : Database)
    (h : Collection.try_new pages fetches db = (.ok (total, counter), db')) :
    ∃ results db₂,
      runResults db.nextCollectionId (pages.zip fetches) (db.start_collection).2
        = (.ok results, db₂)
      ∧ total = results.foldl (fun t r => t + r.2) CollectionStats.zero
      ∧ counter = results.foldl
          (fun c r => counterBump c r.1 r.2.n_new_links) (counterInit pages)
      ∧ db' = db₂.end_collection db.nextCollectionId
          total.n_pages total.n_links total.n_new_links := by
  rcases hr : runResults db.nextCollectionId (pages.zip fetches)
      (db.start_collection).2 with ⟨res, db₂⟩
  cases res with
  | error e =>
      have ha := awaitLoop_of_runResults_err db.nextCollectionId (pages.zip fetches)
        (db.start_collection).2 CollectionStats.zero (counterInit pages) e db₂ hr
        (zip_keys pages fetches)
      rw [try_new_unfold, ha] at h
      simp at h
  | ok results =>
      have ha := awaitLoop_of_runResults_ok db.nextCollectionId (pages.zip fetches)
        (db.start_collection).2 CollectionStats.zero (counterInit pages) results db₂ hr
        (zip_keys pages fetches)
      rw [try_new_unfold, ha] at h
      simp only [Prod.mk.injEq, Except.ok.injEq] at h
      obtain ⟨⟨h1, h2⟩, h3⟩ := h
      refine ⟨results, db₂, rfl, h1.symm, h2.symm, ?_⟩
      rw [← h3, h1]

/-! ### Store idempotence helpers -/

lemma add_page_of_found (db : Database) (url sel : String) (r : PageRow)
    (h : db.pages.find? (fun r => r.url == url && r.selector == sel) = some r) :
    db.add_page url sel = (r.id, db) := by
  simp [Database.add_page, h]

lemma add_page_find (db : Database) (url sel : String) :
    ∃ r : PageRow, ((db.add_page url sel).2).pages.find?
        (fun r => r.url == url && r.selector == sel) = some r
      ∧ r.id = (db.add_page url sel).1 := by
  rcases h : db.pages.find? (fun r => r.url == url && r.selector == sel) with _ | r
  · refine ⟨⟨db.nextPageId, url, sel⟩, ?_, ?_⟩
    · simp only [Database.add_page, h]
      rw [List.find?_append, h]
      simp
    · simp [Database.add_page, h]
  · refine ⟨r, ?_, ?_⟩
    · simp only [Database.add_page, h]
    · simp [Database.add_page, h]

lemma add_link_of_found (db : Database) (pid : Nat) (href text : String) (r : LinkRow)
    (hvalid : (db.pages.any fun r => r.id == pid) = true)
    (h : db.links.find?
        (fun r => r.page_id == pid && r.href == href && r.text == text) = some r) :
    db.add_link pid href text = .ok (r.id, db) := by
  simp [Database.add_link, hvalid, h]

lemma add_link_find (db : Database) (pid : Nat) (href text : String) (id : Nat)
    (db₁ : Database) (h : db.add_link pid href text = .ok (id, db₁)) :
    (db₁.pages.any fun r => r.id == pid) = true
    ∧ ∃ r : LinkRow, db₁.links.find?
        (fun r => r.page_id == pid && r.href == href && r.text == text) = some r
      ∧ r.id = id := by
  cases hvalid : (db.pages.any fun r => r.id == pid)
  · simp [Database.add_link, hvalid] at h
  · rcases hf : db.links.find?
        (fun r => r.page_id == pid && r.href == href && r.text == text) with _ | r
    · simp only [Database.add_link, hvalid, if_true, hf, Except.ok.injEq,
        Prod.mk.injEq] at h
      obtain ⟨h1, h2⟩ := h
      subst h2
      refine ⟨hvalid, ⟨db.nextLinkId, pid, href, text⟩, ?_, h1⟩
      rw [List.find?_append, hf]
      simp
    · simp only [Database.add_link, hvalid, if_true, hf, Except.ok.injEq,
        Prod.mk.injEq] at h
      obtain ⟨h1, h2⟩ := h
      subst h2
      exact ⟨hvalid, r, hf, h1⟩

lemma link_exists_mono (db db' : Database) (h : ∀ r ∈ db.links, r ∈ db'.links)
    (pid : Nat) (href text : String) (he : db.link_exists pid href text = true) :
    db'.link_exists pid href text = true := by
  simp only [Database.link_exists, decide_eq_true_eq] at he ⊢
  rw [List.countP_pos_iff] at he ⊢
  obtain ⟨r, hr, hp⟩ := he
  exact ⟨r, h r hr, hp⟩

lemma sum_map_ones {α : Type _} (l : List α) (f : α → Nat) (h : ∀ x ∈ l, f x = 1) :
    (l.map f).sum = l.length := by
  induction l with
  | nil => rfl
  | cons a rest ih =>
      simp only [List.map_cons, List.sum_cons, List.length_cons]
      rw [h a (List.mem_cons_self _ _),
        ih (fun x hx => h x (List.mem_cons_of_mem _ hx))]
      omega

/-! ### Claim theorems -/

/-- C1: a page worker's stats count novelty against the store state at
the `link_exists` check, which happens strictly before the
corresponding `add_link`: `n_links` is the number of extracted links,
and `n_new_links` counts exactly the links whose `(page_id, href, text)`
triple was absent from the store at that moment (earlier links of the
same page having already been inserted).  In particular a page with 3
extracted links of which 1 already exists in the store reports
`n_links = 3` and `n_new_links = 2`. -/
theorem collect_page_counts_novelty :
    (∀ (page : Page) (cid : Nat) (db : Database) (links : List Link),
      (collect_page page cid db (.ok links)).1
        = .ok ⟨1, links.length,
            novelCount (linkTriples db (db.add_page page.url page.selector).1) links⟩)
    ∧ (collect_page ⟨"p", "u", "s"⟩ 1 dbC1
        (.ok [⟨"h1", "t1"⟩, ⟨"h2", "t2"⟩, ⟨"h3", "t3"⟩])).1
      = .ok ⟨1, 3, 2⟩ := by
  constructor
  · intro page cid db links
    obtain ⟨db', heq, _, _⟩ := collect_page_ok page cid db links
    rw [heq]
  · rfl

/-- C2: `get_or_create` is an idempotent dedup for both tables: a second
`add_page` with the same `(url, selector)` returns the same page id and
leaves the store unchanged, and a second `add_link` with the same
`(page_id, href, text)` returns the same link id and leaves the store
unchanged. -/
theorem get_or_create_idempotent :
    (∀ (db : Database) (url sel : String),
      ((db.add_page url sel).2).add_page url sel
        = ((db.add_page url sel).1, (db.add_page url sel).2))
    ∧ (∀ (db : Database) (pid : Nat) (href text : String) (id : Nat) (db₁ : Database),
      db.add_link pid href text = .ok (id, db₁) →
      db₁.add_link pid href text = .ok (id, db₁)) := by
  constructor
  · intro db url sel
    obtain ⟨r, hfind, hid⟩ := add_page_find db url sel
    rw [add_page_of_found _ _ _ _ hfind, hid]
  · intro db pid href text id db₁ h
    obtain ⟨hvalid, r, hf, hid⟩ := add_link_find db pid href text id db₁ h
    rw [add_link_of_found _ _ _ _ _ hvalid hf, hid]

/-- C2 witness: on the concrete store `dbC1`, inserting the already
present link twice yields the same identifier and the same store. -/
theorem get_or_create_idempotent_witness :
    dbC1.add_link 1 "h1" "t1" = .ok (1, dbC1) :=
  get_or_create_idempotent.2 dbC1 1 "h1" "t1" 1 dbC1 rfl

/-- C3: `CollectionStats` form a monoid under pointwise addition with the
all-zero identity; every page worker's stats satisfy
`n_new_links ≤ n_links`; folding any list of stats each satisfying the
invariant (as all per-page stats do) from the zero identity preserves
it; and the total of every successful run satisfies it. -/
theorem stats_monoid_invariant :
    (∀ (page : Page) (cid : Nat) (db : Database) (links : List Link)
      (stats : CollectionStats) (db₂ : Database),
      collect_page page cid db (.ok links) = (.ok stats, db₂) →
      stats.n_new_links ≤ stats.n_links)
    ∧ (∀ l : List CollectionStats, (∀ s ∈ l, s.n_new_links ≤ s.n_links) →
      (l.foldl (· + ·) CollectionStats.zero).n_new_links
        ≤ (l.foldl (· + ·) CollectionStats.zero).n_links)
    ∧ (∀ (pages : List Page) (fetches : List (Except Err (List Link))) (db : Database)
      (total : CollectionStats) (counter : List (String × Nat)) (db' : Database),
      Collection.try_new pages fetches db = (.ok (total, counter), db') →
      total.n_new_links ≤ total.n_links) := by
  refine ⟨?_, ?_, ?_⟩
  · intro page cid db links stats db₂ h
    obtain ⟨db', heq, _, _⟩ := collect_page_ok page cid db links
    rw [heq] at h
    simp only [Prod.mk.injEq, Except.ok.injEq] at h
    obtain ⟨h1, _⟩ := h
    rw [← h1]
    exact novelCount_le_length _ _
  · intro l hl
    exact foldl_stats_inv l CollectionStats.zero (Nat.le_refl 0) hl
  · intro pages fetches db total counter db' h
    obtain ⟨results, db₂, hrun, htotal, _, _⟩ :=
      try_new_ok_decomp pages fetches db total counter db' h
    obtain ⟨_, hinv⟩ := runResults_ok_spec _ _ _ _ _ hrun
    obtain ⟨_, hlinks, hnew⟩ := foldl_stats_components results CollectionStats.zero
    rw [htotal, hnew, hlinks]
    simp only [CollectionStats.zero, Nat.zero_add]
    exact List.sum_le_sum (fun r hr => (hinv r hr).2)

/-- C3 witness: the invariant instantiated on a concrete worker run, a
concrete fold and a concrete total run. -/
theorem stats_monoid_invariant_witness :
    (CollectionStats.mk 1 3 2).n_new_links ≤ (CollectionStats.mk 1 3 2).n_links
    ∧ (([⟨1, 3, 2⟩] : List CollectionStats).foldl
        (· + ·) CollectionStats.zero).n_new_links
      ≤ (([⟨1, 3, 2⟩] : List CollectionStats).foldl
          (· + ·) CollectionStats.zero).n_links
    ∧ (CollectionStats.mk 1 1 1).n_new_links ≤ (CollectionStats.mk 1 1 1).n_links :=
  ⟨stats_monoid_invariant.1 ⟨"p", "u", "s"⟩ 1 dbC1
      [⟨"h1", "t1"⟩, ⟨"h2", "t2"⟩, ⟨"h3", "t3"⟩] ⟨1, 3, 2⟩
      (collect_page ⟨"p", "u", "s"⟩ 1 dbC1
        (.ok [⟨"h1", "t1"⟩, ⟨"h2", "t2"⟩, ⟨"h3", "t3"⟩])).2 rfl,
   stats_monoid_invariant.2.1 [⟨1, 3, 2⟩] (by decide),
   stats_monoid_invariant.2.2 [⟨"p", "u", "s"⟩] [.ok [⟨"h", "t"⟩]] Database.empty
      ⟨1, 1, 1⟩ [("p", 1)]
      (Collection.try_new [⟨"p", "u", "s"⟩] [.ok [⟨"h", "t"⟩]] Database.empty).2 rfl⟩

/-- C4: if some page worker fails (the first failure being at input
position `i`), `Collection::try_new` returns that error,
`end_collection` is never called, and the run row created for this run
remains open: the final collections table is the initial one plus the
new row with a null end (no counts committed, no other row touched). -/
theorem worker_error_aborts_run
    (pages : List Page) (fetches : List (Except Err (List Link))) (db : Database)
    (i : Nat) (p : Page) (e : Err)
    (hi : (pages.zip fetches).get? i = some (p, .error e))
    (hbefore : ∀ j, j < i → ∃ q ls, (pages.zip fetches).get? j = some (q, .ok ls)) :
    (Collection.try_new pages fetches db).1 = .error e
    ∧ (Collection.try_new pages fetches db).2.collections
        = db.collections ++ [⟨db.nextCollectionId, none⟩] := by
  obtain ⟨db₂, hrun, hcoll, _⟩ :=
    runResults_first_err db.nextCollectionId (pages.zip fetches) i
      (db.start_collection).2 p e hi hbefore
  have ha := awaitLoop_of_runResults_err db.nextCollectionId (pages.zip fetches)
    (db.start_collection).2 CollectionStats.zero (counterInit pages) e db₂ hrun
    (zip_keys pages fetches)
  rw [try_new_unfold, ha]
  refine ⟨rfl, ?_⟩
  rw [hcoll]
  rfl

/-- C4 witness: a one-page run whose worker fails with a store error. -/
theorem worker_error_aborts_run_witness :
    (Collection.try_new [⟨"p", "u", "s"⟩] [.error (.store "boom")] Database.empty).1
      = .error (.store "boom")
    ∧ (Collection.try_new [⟨"p", "u", "s"⟩]
        [.error (.store "boom")] Database.empty).2.collections
      = Database.empty.collections ++ [⟨Database.empty.nextCollectionId, none⟩] :=
  worker_error_aborts_run [⟨"p", "u", "s"⟩] [.error (.store "boom")] Database.empty 0
    ⟨"p", "u", "s"⟩ (.store "boom") rfl (fun j hj => absurd hj (Nat.not_lt_zero j))

/-- C5: if the cancellation signal wins the race while a worker awaits
the network, `request::get` fails with a cancellation error (a
constructor distinct from a network error, so never equal to one);
`Page::request` propagates it; and a run whose worker fails with it
returns the cancellation error to the caller, never calls
`end_collection` (the run row stays open), and leaves every
already-written link record intact and queryable via `link_exists`. -/
theorem cancellation_aborts_run_preserving_links :
    (∀ (page : Page) (ext : String → Except Err (List Link)),
      Page.request page RaceOutcome.cancelledFirst ext
        = .error (.cancelled page.url))
    ∧ (∀ u v, Err.cancelled u ≠ Err.network v)
    ∧ (∀ (pages : List Page) (fetches : List (Except Err (List Link))) (db : Database)
        (i : Nat) (p : Page) (u : String),
        (pages.zip fetches).get? i = some (p, .error (.cancelled u)) →
        (∀ j, j < i → ∃ q ls, (pages.zip fetches).get? j = some (q, .ok ls)) →
        (Collection.try_new pages fetches db).1 = .error (.cancelled u)
        ∧ (Collection.try_new pages fetches db).2.collections
            = db.collections ++ [⟨db.nextCollectionId, none⟩]
        ∧ (∀ r ∈ db.links, r ∈ (Collection.try_new pages fetches db).2.links)
        ∧ (∀ pid href text, db.link_exists pid href text = true →
            (Collection.try_new pages fetches db).2.link_exists pid href text
              = true)) := by
  refine ⟨fun page ext => rfl, fun u v h => Err.noConfusion h, ?_⟩
  intro pages fetches db i p u hi hbefore
  obtain ⟨db₂, hrun, hcoll, hmono⟩ :=
    runResults_first_err db.nextCollectionId (pages.zip fetches) i
      (db.start_collection).2 p (.cancelled u) hi hbefore
  have ha := awaitLoop_of_runResults_err db.nextCollectionId (pages.zip fetches)
    (db.start_collection).2 CollectionStats.zero (counterInit pages)
    (.cancelled u) db₂ hrun (zip_keys pages fetches)
  rw [try_new_unfold, ha]
  have hlinks0 : (db.start_collection).2.links = db.links := rfl
  have hmono' : ∀ r ∈ db.links, r ∈ db₂.links := by
    intro r hr
    refine hmono r ?_
    rw [hlinks0]; exact hr
  refine ⟨rfl, ?_, hmono', ?_⟩
  · rw [hcoll]; rfl
  · intro pid href text he
    exact link_exists_mono db db₂ hmono' pid href text he

/-- C5 witness: a run over the concrete store `dbC1` cancelled during
its only page's fetch: the cancellation error is returned and the
pre-existing link row is still present and still found by
`link_exists`. -/
theorem cancellation_aborts_run_preserving_links_witness :
    (Collection.try_new [⟨"p", "u", "s"⟩] [.error (.cancelled "u")] dbC1).1
      = .error (.cancelled "u")
    ∧ (⟨1, 1, "h1", "t1"⟩ : LinkRow)
        ∈ (Collection.try_new [⟨"p", "u", "s"⟩]
            [.error (.cancelled "u")] dbC1).2.links
    ∧ (Collection.try_new [⟨"p", "u", "s"⟩]
        [.error (.cancelled "u")] dbC1).2.link_exists 1 "h1" "t1" = true :=
  ⟨(cancellation_aborts_run_preserving_links.2.2 [⟨"p", "u", "s"⟩]
      [.error (.cancelled "u")] dbC1 0 ⟨"p", "u", "s"⟩ "u" rfl
      (fun j hj => absurd hj (Nat.not_lt_zero j))).1,
   (cancellation_aborts_run_preserving_links.2.2 [⟨"p", "u", "s"⟩]
      [.error (.cancelled "u")] dbC1 0 ⟨"p", "u", "s"⟩ "u" rfl
      (fun j hj => absurd hj (Nat.not_lt_zero j))).2.2.1 ⟨1, 1, "h1", "t1"⟩
      (by decide),
   (cancellation_aborts_run_preserving_links.2.2 [⟨"p", "u", "s"⟩]
      [.error (.cancelled "u")] dbC1 0 ⟨"p", "u", "s"⟩ "u" rfl
      (fun j hj => absurd hj (Nat.not_lt_zero j))).2.2.2 1 "h1" "t1" (by decide)⟩

/-- C6: the notification message composed from the insertion-ordered
counter follows the templates: one qualifying page (positive new-link
count) yields "<n> for <page>.", two yield "<n1> for <p1> and <n2> for
<p2>.", three yield "<n1> for <p1>, <n2> for <p2>, and <n3> for <p3>.",
and four or more yield the first two pages by name and count followed by
the clause "and some more for <k> other pages." with k = qualifying
pages minus 2, joined with ", "; the spec's four literal scenarios
produce exactly the quoted strings. -/
theorem message_composition :
    (∀ (counter : List (String × Nat)) (p₁ : String) (n₁ : Nat),
      counter.filter (fun kv => decide (0 < kv.2)) = [(p₁, n₁)] →
      composeMessage counter = Nat.repr n₁ ++ " for " ++ p₁ ++ ".")
    ∧ (∀ (counter : List (String × Nat)) (p₁ p₂ : String) (n₁ n₂ : Nat),
      counter.filter (fun kv => decide (0 < kv.2)) = [(p₁, n₁), (p₂, n₂)] →
      composeMessage counter
        = Nat.repr n₁ ++ " for " ++ p₁ ++ " and "
          ++ Nat.repr n₂ ++ " for " ++ p₂ ++ ".")
    ∧ (∀ (counter : List (String × Nat)) (p₁ p₂ p₃ : String) (n₁ n₂ n₃ : Nat),
      counter.filter (fun kv => decide (0 < kv.2)) = [(p₁, n₁), (p₂, n₂), (p₃, n₃)] →
      composeMessage counter
        = Nat.repr n₁ ++ " for " ++ p₁ ++ ", " ++ Nat.repr n₂ ++ " for " ++ p₂
          ++ ", and " ++ Nat.repr n₃ ++ " for " ++ p₃ ++ ".")
    ∧ (∀ (counter : List (String × Nat)) (p₁ p₂ p₃ p₄ : String) (n₁ n₂ n₃ n₄ : Nat)
        (rest : List (String × Nat)),
      counter.filter (fun kv => decide (0 < kv.2))
        = (p₁, n₁) :: (p₂, n₂) :: (p₃, n₃) :: (p₄, n₄) :: rest →
      composeMessage counter
        = Nat.repr n₁ ++ " for " ++ p₁ ++ ", " ++ Nat.repr n₂ ++ " for " ++ p₂
          ++ ", " ++ "and some more for " ++ Nat.repr (rest.length + 2)
          ++ " other pages.")
    ∧ composeMessage [("A", 5)] = "5 for A."
    ∧ composeMessage [("A", 5), ("B", 2)] = "5 for A and 2 for B."
    ∧ composeMessage [("A", 5), ("B", 2), ("C", 1)] = "5 for A, 2 for B, and 1 for C."
    ∧ composeMessage [("A", 5), ("B", 2), ("C", 1), ("D", 3)]
        = "5 for A, 2 for B, and some more for 2 other pages." := by
  refine ⟨?_, ?_, ?_, ?_, rfl, rfl, rfl, rfl⟩
  · intro counter p₁ n₁ h
    simp [composeMessage, h, String.append_assoc]
  · intro counter p₁ p₂ n₁ n₂ h
    simp [composeMessage, h, String.append_assoc]
  · intro counter p₁ p₂ p₃ n₁ n₂ n₃ h
    simp [composeMessage, h, String.append_assoc]
  · intro counter p₁ p₂ p₃ p₄ n₁ n₂ n₃ n₄ rest h
    have h1 : ¬ (((p₁, n₁) :: (p₂, n₂) :: (p₃, n₃) :: (p₄, n₄) :: rest).length = 1) := by
      simp
    have h2 : ¬ (((p₁, n₁) :: (p₂, n₂) :: (p₃, n₃) :: (p₄, n₄) :: rest).length = 2) := by
      simp
    have h3 : ¬ (((p₁, n₁) :: (p₂, n₂) :: (p₃, n₃) :: (p₄, n₄) :: rest).length = 3) := by
      simp
    have hk : ((p₁, n₁) :: (p₂, n₂) :: (p₃, n₃) :: (p₄, n₄) :: rest).length - 2
        = rest.length + 2 := by
      simp
    simp only [composeMessage, h]
    rw [if_neg h1, if_neg h2, if_neg h3]
    simp [hk, joinSep, String.append_assoc]
    rw [← String.append_assoc ", " "and some more for ",
      show (", " : String) ++ "and some more for " = ", and some more for " from rfl]

/-- C6 witness: the one-page template instantiated on the literal
counter of the spec's first scenario. -/
theorem message_composition_witness :
    composeMessage [("A", 5)] = Nat.repr 5 ++ " for " ++ "A" ++ "." :=
  message_composition.1 [("A", 5)] "A" 5 rfl

/-- C7 counterexample: at a total of 0 the code's title is the singular
"0 new link", not the plural "0 new links" the claim requires for every
total other than 1 (the branch is `if x > 1 { plural } else
{ singular }`). -/
theorem title_singular_iff_one_counterexample :
    composeTitle 0 = "0 new link" ∧ composeTitle 0 ≠ "0 new links" := by
  refine ⟨rfl, ?_⟩
  decide

/-- C7 amended: for every total of at least 1 — the only totals for
which a notification is sent, since `send_notification` is reached only
when `n_new_links > 0` — the title is the singular "<total> new link"
exactly when the total is 1, and the plural "<total> new links"
otherwise. -/
theorem title_singular_iff_one (x : Nat) (hx : 1 ≤ x) :
    composeTitle x
      = if x = 1 then Nat.repr x ++ " new link"
        else Nat.repr x ++ " new links" := by
  rcases Nat.lt_or_ge 1 x with h | h
  · rw [composeTitle, if_pos h, if_neg (by omega)]
  · have hx1 : x = 1 := by omega
    subst hx1
    rfl

/-- C7 witness: the amended title rule at totals 1 and 2. -/
theorem title_singular_iff_one_witness :
    composeTitle 1
        = (if 1 = 1 then Nat.repr 1 ++ " new link" else Nat.repr 1 ++ " new links")
    ∧ composeTitle 2
        = (if 2 = 1 then Nat.repr 2 ++ " new link" else Nat.repr 2 ++ " new links") :=
  ⟨title_singular_iff_one 1 (by decide), title_singular_iff_one 2 (by decide)⟩

/-- C8: on a reload signal whose `Config::load` fails, the scheduler
step leaves its state — in particular the configuration in effect —
completely unchanged and yields a successor state (the loop body has no
exit path, so the loop continues); only a successful load replaces the
configuration. -/
theorem reload_failure_keeps_config :
    (∀ (s : SchedState) (msg : String), processStep s (.reload (.error msg)) = s)
    ∧ (∀ (s : SchedState) (c : Config), (processStep s (.reload (.ok c))).config = c) :=
  ⟨fun _ _ => rfl, fun _ _ => rfl⟩

/-- C9: the per-page counter of a successful run is keyed by page name:
its keys are exactly the distinct page names of the input list in order
of first occurrence (so one entry per distinct name, with no
duplicates), and the value at each name is the sum of the `n_new_links`
of the run's per-page results for the pages bearing that name — pages
sharing a name share one entry. -/
theorem counter_keyed_by_name
    (pages : List Page) (fetches : List (Except Err (List Link))) (db : Database)
    (total : CollectionStats) (counter : List (String × Nat)) (db' : Database)
    (h : Collection.try_new pages fetches db = (.ok (total, counter), db')) :
    counter.map Prod.fst = firstOccNames pages
    ∧ (counter.map Prod.fst).Nodup
    ∧ ∃ results db₂,
        runResults db.nextCollectionId (pages.zip fetches) (db.start_collection).2
          = (.ok results, db₂)
        ∧ ∀ k, counterGet counter k
            = if (firstOccNames pages).contains k
              then some (namedSum results k) else none := by
  obtain ⟨results, db₂, hrun, _, hcounter, _⟩ :=
    try_new_ok_decomp pages fetches db total counter db' h
  have hbump_fst : ∀ (rs : List (String × CollectionStats)) (c : List (String × Nat)),
      (rs.foldl (fun c r => counterBump c r.1 r.2.n_new_links) c).map Prod.fst
        = c.map Prod.fst := by
    intro rs
    induction rs with
    | nil => intro c; rfl
    | cons r rest ih =>
        intro c
        simp only [List.foldl_cons]
        rw [ih, counterBump_fst]
  have hfst : counter.map Prod.fst = firstOccNames pages := by
    rw [hcounter, hbump_fst, counterInit_fst]
  refine ⟨hfst, ?_, results, db₂, hrun, ?_⟩
  · rw [hfst]; exact firstOccNames_nodup pages
  · intro k
    rw [hcounter, counterGet_foldl_bump, counterGet_init]
    cases hc : (firstOccNames pages).contains k
    · simp
    · simp

/-- C9 witness: two input pages sharing the name "p" produce a counter
with a single entry, keyed in first-occurrence order. -/
theorem counter_keyed_by_name_witness :
    ([("p", 2)] : List (String × Nat)).map Prod.fst
        = firstOccNames [⟨"p", "u", "s"⟩, ⟨"p", "u2", "s"⟩]
    ∧ (([("p", 2)] : List (String × Nat)).map Prod.fst).Nodup :=
  have h := counter_keyed_by_name [⟨"p", "u", "s"⟩, ⟨"p", "u2", "s"⟩]
    [.ok [⟨"h", "t"⟩], .ok [⟨"h", "t"⟩]] Database.empty ⟨2, 2, 2⟩ [("p", 2)]
    (Collection.try_new [⟨"p", "u", "s"⟩, ⟨"p", "u2", "s"⟩]
      [.ok [⟨"h", "t"⟩], .ok [⟨"h", "t"⟩]] Database.empty).2 rfl
  ⟨h.1, h.2.1⟩

/-- C10: every page worker's stats have `n_pages = 1`, and the total of
a successful run over k pages (one fetch outcome per page) has
`n_pages = k`, the fold starting from the all-zero identity. -/
theorem total_counts_pages :
    (∀ (page : Page) (cid : Nat) (db : Database) (links : List Link)
      (stats : CollectionStats) (db₂ : Database),
      collect_page page cid db (.ok links) = (.ok stats, db₂) → stats.n_pages = 1)
    ∧ (∀ (pages : List Page) (fetches : List (Except Err (List Link))) (db : Database)
      (total : CollectionStats) (counter : List (String × Nat)) (db' : Database),
      fetches.length = pages.length →
      Collection.try_new pages fetches db = (.ok (total, counter), db') →
      total.n_pages = pages.length) := by
  constructor
  · intro page cid db links stats db₂ h
    obtain ⟨db', heq, _, _⟩ := collect_page_ok page cid db links
    rw [heq] at h
    simp only [Prod.mk.injEq, Except.ok.injEq] at h
    obtain ⟨h1, _⟩ := h
    rw [← h1]
  · intro pages fetches db total counter db' hlen h
    obtain ⟨results, db₂, hrun, htotal, _, _⟩ :=
      try_new_ok_decomp pages fetches db total counter db' h
    obtain ⟨hrlen, hinv⟩ := runResults_ok_spec _ _ _ _ _ hrun
    obtain ⟨hp, _, _⟩ := foldl_stats_components results CollectionStats.zero
    rw [htotal, hp]
    simp only [CollectionStats.zero, Nat.zero_add]
    rw [sum_map_ones results _ (fun r hr => (hinv r hr).1), hrlen,
      List.length_zip, hlen, Nat.min_self]

/-- C10 witness: a successful two-page run reports `n_pages = 2`. -/
theorem total_counts_pages_witness :
    (CollectionStats.mk 2 2 2).n_pages
      = ([⟨"p", "u", "s"⟩, ⟨"p", "u2", "s"⟩] : List Page).length :=
  total_counts_pages.2 [⟨"p", "u", "s"⟩, ⟨"p", "u2", "s"⟩]
    [.ok [⟨"h", "t"⟩], .ok [⟨"h", "t"⟩]] Database.empty ⟨2, 2, 2⟩ [("p", 2)]
    (Collection.try_new [⟨"p", "u", "s"⟩, ⟨"p", "u2", "s"⟩]
      [.ok [⟨"h", "t"⟩], .ok [⟨"h", "t"⟩]] Database.empty).2 rfl rfl
